import Mathlib

/-!
Shallow embedding of the PowerSync/Supabase demo todo application
(`frontend/src/App.js`): the write-queue uploader
(`SupabaseConnector.uploadData`), the local CRUD handlers
(`handleCreateTodo`, `handleToggleTodo`, `handleDeleteList`,
`createSampleData`), and the remote-store semantics the uploader's
calls induce.
-/

/-- A field value as it travels in a mutation payload: locally the
`completed` column is a zero/one integer, remotely it would be a
boolean; identifiers, names and timestamps are strings. -/
inductive Value where
  | vInt : Int → Value
  | vStr : String → Value
  | vBool : Bool → Value
deriving DecidableEq, Repr

/-- A record payload: an association list of column name to value
(the shape of `op.opData` in the source). -/
abbrev Row := List (String × Value)

/-- One element of `transaction.crud` in `uploadData`: the operation
kind string (`op.op`, one of "PUT", "PATCH", "DELETE" in practice),
the target table name (`op.table`), the record id (`op.id`) and the
payload (`op.opData`). -/
structure CrudOp where
  op : String
  table : String
  id : String
  opData : Row
deriving DecidableEq, Repr

/-- The three remote call shapes `uploadData` issues against supabase:
`upsert t p` is `supabase.from(t).upsert(p)`, `update t p i` is
`supabase.from(t).update(p).eq('id', i)`, and `delete t i` is
`supabase.from(t).delete().eq('id', i)`. -/
inductive RemoteCall where
  | upsert : String → Row → RemoteCall
  | update : String → Row → String → RemoteCall
  | delete : String → String → RemoteCall
deriving DecidableEq, Repr

/-- The `switch (op.op)` body of `uploadData` (App.js lines 69-91):
which remote call, if any, a single crud operation produces.  `PUT`
on `lists`/`todos` upserts the payload; `PATCH` updates the payload
filtered by `id`; `DELETE` deletes filtered by `id`.  Any other table
name falls through the `if`/`else if` chain, and any other operation
kind falls through the `switch` (which has no `default`), issuing no
call. -/
def callOf (o : CrudOp) : Option RemoteCall :=
  if o.op = "PUT" then
    if o.table = "lists" then some (.upsert "lists" o.opData)
    else if o.table = "todos" then some (.upsert "todos" o.opData)
    else none
  else if o.op = "PATCH" then
    if o.table = "lists" then some (.update "lists" o.opData o.id)
    else if o.table = "todos" then some (.update "todos" o.opData o.id)
    else none
  else if o.op = "DELETE" then
    if o.table = "lists" then some (.delete "lists" o.id)
    else if o.table = "todos" then some (.delete "todos" o.id)
    else none
  else none

/-- The `for (const op of transaction.crud)` loop of `uploadData`,
run against a remote store modelled by a success predicate on calls
(`remote c = true` means the awaited supabase call succeeds,
`false` means it raises).  Returns the list of remote calls actually
attempted, in order, and whether the whole loop completed without an
exception.  A raised call aborts the loop immediately (the exception
propagates to the `catch`), so no later operation is attempted. -/
def runOps (remote : RemoteCall → Bool) : List CrudOp → List RemoteCall × Bool
  | [] => ([], true)
  | o :: rest =>
    match callOf o with
    | none => runOps remote rest
    | some c =>
      if remote c then
        let r := runOps remote rest
        (c :: r.1, r.2)
      else ([c], false)

/-- The observable outcome of one `uploadData` tick: no transaction
was pending, the transaction was completed (`transaction.complete()`),
or it was rolled back (`transaction.rollback()`). -/
inductive Outcome where
  | noop
  | committed
  | rolledBack
deriving DecidableEq, Repr

/-- The local crud queue: a list of pending transactions (batches),
oldest first; `getNextCrudTransaction` yields the head. -/
abbrev Queue := List (List CrudOp)

/-- `SupabaseConnector.uploadData` (App.js lines 58-100) as a function
of the queue and the remote store's behaviour: if no transaction is
pending it returns at once; otherwise it runs the loop over the batch,
and either completes the transaction (evicting it from the queue) when
every attempted call succeeded, or rolls it back (leaving the queue
unchanged) when some call raised.  Returns the new queue, the trace of
attempted remote calls, and the outcome. -/
def uploadData (remote : RemoteCall → Bool) (q : Queue) :
    Queue × List RemoteCall × Outcome :=
  match q with
  | [] => ([], [], .noop)
  | batch :: rest =>
    let r := runOps remote batch
    if r.2 then (rest, r.1, .committed)
    else (batch :: rest, r.1, .rolledBack)

/-- A row of the local `lists` table (App.js lines 19-24): id is the
primary key; name; creation and last-update timestamps. -/
structure ListRec where
  id : String
  name : String
  created_at : String
  updated_at : String
deriving DecidableEq, Repr

/-- A row of the local `todos` table (App.js lines 25-33): id is the
primary key, list_id references `lists(id)`, `completed` is a zero/one
integer defaulting to 0. -/
structure TodoRec where
  id : String
  list_id : String
  description : String
  completed : Int
  created_at : String
  updated_at : String
deriving DecidableEq, Repr

/-- The local SQLite database state: the rows of the two tables. -/
structure LocalDB where
  lists : List ListRec
  todos : List TodoRec
deriving DecidableEq, Repr

/-- Referential integrity of the local database: every todo's
`list_id` resolves to an existing list. -/
def refIntegrity (db : LocalDB) : Prop :=
  ∀ t ∈ db.todos, ∃ l ∈ db.lists, l.id = t.list_id

instance (db : LocalDB) : Decidable (refIntegrity db) := by
  unfold refIntegrity; infer_instance

/-- `handleCreateTodo` (App.js lines 362-374): inserts one todo row
with the given id, list id and description, `completed` 0, and the
current timestamp as both `created_at` and `updated_at`. -/
def handleCreateTodo (db : LocalDB) (id listId description now : String) :
    LocalDB :=
  { db with todos := db.todos ++ [⟨id, listId, description, 0, now, now⟩] }

/-- `handleCreateList` (App.js lines 348-360): inserts one list row
with the current timestamp as both timestamps. -/
def handleCreateList (db : LocalDB) (id name now : String) : LocalDB :=
  { db with lists := db.lists ++ [⟨id, name, now, now⟩] }

/-- The fixed sample todo descriptions of `createSampleData`
(App.js lines 328-332). -/
def todoDescriptions : List String :=
  ["Set up PowerSync integration", "Test offline functionality",
   "Build beautiful UI"]

/-- `createSampleData` (App.js lines 316-340): one `now` timestamp is
taken; a sample list is inserted, then three todos (one fresh uuid
each, paired with the fixed descriptions), each with `completed` 0 and
`created_at` and `updated_at` both equal to `now`. -/
def createSampleData (db : LocalDB) (listId i1 i2 i3 now : String) :
    LocalDB :=
  let db1 := handleCreateList db listId "Sample List" now
  (List.zip [i1, i2, i3] todoDescriptions).foldl
    (fun d p => handleCreateTodo d p.1 listId p.2 now) db1

/-- `handleToggleTodo` (App.js lines 376-387): running
`UPDATE todos SET completed = ?, updated_at = ? WHERE id = ?` with
the value `completed ? 0 : 1` (JavaScript truthiness on the zero/one
integer column: truthy exactly when nonzero) and the current
timestamp. -/
def handleToggleTodo (db : LocalDB) (todoId : String) (completed : Int)
    (now : String) : LocalDB :=
  { db with
    todos := db.todos.map fun t =>
      if t.id = todoId then
        { t with completed := if completed ≠ 0 then 0 else 1,
                 updated_at := now }
      else t }

/-- The first statement of `handleDeleteList` (App.js line 390):
`DELETE FROM todos WHERE list_id = ?`. -/
def deleteTodosOfList (db : LocalDB) (listId : String) : LocalDB :=
  { db with todos := db.todos.filter fun t => t.list_id ≠ listId }

/-- The second statement of `handleDeleteList` (App.js line 391):
`DELETE FROM lists WHERE id = ?`. -/
def deleteListById (db : LocalDB) (listId : String) : LocalDB :=
  { db with lists := db.lists.filter fun l => l.id ≠ listId }

/-- `handleDeleteList` (App.js lines 389-402): deletes the todos of
the list first, then the list row itself. -/
def handleDeleteList (db : LocalDB) (listId : String) : LocalDB :=
  deleteListById (deleteTodosOfList db listId) listId

/-- The primary-key value of a remote row: its `id` column. -/
def rowId (r : Row) : Option Value := r.lookup "id"

/-- Remote upsert semantics (supabase `upsert`): insert-or-replace
keyed by the primary key — if some row has the payload's id, replace
every such row by the payload, else append the payload as a new
row. -/
def upsertRow (tbl : List Row) (p : Row) : List Row :=
  if tbl.any (fun r => rowId r = rowId p) then
    tbl.map fun r => if rowId r = rowId p then p else r
  else tbl ++ [p]

/-- Setting one column of a remote row: replaces the value of an
existing column, leaves other columns alone. -/
def setField (r : Row) (k : String) (v : Value) : Row :=
  r.map fun kv => if kv.1 = k then (k, v) else kv

/-- Remote filtered-update semantics (supabase `update ... eq id`):
every row whose id equals the filter value has the payload's columns
set on it; other rows are untouched; no row is created. -/
def updateRows (tbl : List Row) (p : Row) (i : String) : List Row :=
  tbl.map fun r =>
    if rowId r = some (.vStr i) then p.foldl (fun a kv => setField a kv.1 kv.2) r
    else r

/-- Remote filtered-delete semantics (supabase `delete ... eq id`):
removes every row whose id equals the filter value. -/
def deleteRows (tbl : List Row) (i : String) : List Row :=
  tbl.filter fun r => rowId r ≠ some (.vStr i)

/-- The remote (Supabase) store: the rows of its two tables. -/
structure RemoteState where
  lists : List Row
  todos : List Row
deriving DecidableEq, Repr

/-- Applying one issued remote call to the remote store, by table
name and call shape. -/
def applyCall (s : RemoteState) (c : RemoteCall) : RemoteState :=
  match c with
  | .upsert t p =>
    if t = "lists" then { s with lists := upsertRow s.lists p }
    else if t = "todos" then { s with todos := upsertRow s.todos p }
    else s
  | .update t p i =>
    if t = "lists" then { s with lists := updateRows s.lists p i }
    else if t = "todos" then { s with todos := updateRows s.todos p i }
    else s
  | .delete t i =>
    if t = "lists" then { s with lists := deleteRows s.lists i }
    else if t = "todos" then { s with todos := deleteRows s.todos i }
    else s

/-- Applying a sequence of remote calls in order. -/
def applyCalls (s : RemoteState) (cs : List RemoteCall) : RemoteState :=
  cs.foldl applyCall s

/-- Modelled from the spec: applying one Pending Mutation directly to
the remote store — a create/full-upsert mutation is an upsert by
primary key on its table, a partial-update mutation updates the rows
matching its record id, a delete mutation deletes the rows matching
its record id; a mutation whose table is not a remote resource
changes nothing. -/
def applyMutationDirect (s : RemoteState) (o : CrudOp) : RemoteState :=
  if o.op = "PUT" then
    if o.table = "lists" then { s with lists := upsertRow s.lists o.opData }
    else if o.table = "todos" then { s with todos := upsertRow s.todos o.opData }
    else s
  else if o.op = "PATCH" then
    if o.table = "lists" then { s with lists := updateRows s.lists o.opData o.id }
    else if o.table = "todos" then { s with todos := updateRows s.todos o.opData o.id }
    else s
  else if o.op = "DELETE" then
    if o.table = "lists" then { s with lists := deleteRows s.lists o.id }
    else if o.table = "todos" then { s with todos := deleteRows s.todos o.id }
    else s
  else s

/-- Modelled from the spec: applying a sequence of mutations directly,
in the order they were queued. -/
def applyMutationsDirect (s : RemoteState) (os : List CrudOp) : RemoteState :=
  os.foldl applyMutationDirect s

/-- When every remote call succeeds, the loop attempts exactly the
calls the switch produces, in queue order, and completes. -/
theorem runOps_of_success (remote : RemoteCall → Bool)
    (h : ∀ c, remote c = true) (ops : List CrudOp) :
    runOps remote ops = (ops.filterMap callOf, true) := by
  induction ops with
  | nil => rfl
  | cons o rest ih =>
    unfold runOps
    cases hc : callOf o with
    | none => simpa [hc] using ih
    | some c => simp [hc, h c, ih]

/-- The loop completes without an exception exactly when every call
the switch produces for the batch succeeds. -/
theorem runOps_true_iff (remote : RemoteCall → Bool) (ops : List CrudOp) :
    (runOps remote ops).2 = true ↔
      ∀ c ∈ ops.filterMap callOf, remote c = true := by
  induction ops with
  | nil => simp [runOps]
  | cons o rest ih =>
    unfold runOps
    cases hc : callOf o with
    | none => simpa [hc] using ih
    | some c =>
      by_cases hr : remote c = true
      · simp [hc, hr, ih]
      · simp [hc, hr]

/-- When the loop completes, its trace is the full list of calls the
switch produces, and every one of them succeeded. -/
theorem runOps_success_eq (remote : RemoteCall → Bool) (ops : List CrudOp)
    (h : (runOps remote ops).2 = true) :
    runOps remote ops = (ops.filterMap callOf, true) := by
  induction ops with
  | nil => rfl
  | cons o rest ih =>
    unfold runOps at h ⊢
    cases hc : callOf o with
    | none => simpa [hc] using ih (by simpa [hc] using h)
    | some c =>
      by_cases hr : remote c = true
      · simp only [hc, hr, if_true] at h ⊢
        simp [ih h, List.filterMap_cons, hc]
      · simp [hc, hr] at h

/-- A crud operation the switch turns into a call has the same effect
on the remote store through that call as the direct spec-side
application of the mutation. -/
theorem applyCall_eq_direct (s : RemoteState) (o : CrudOp)
    (c : RemoteCall) (h : callOf o = some c) :
    applyCall s c = applyMutationDirect s o := by
  unfold callOf at h
  unfold applyMutationDirect
  split_ifs at h ⊢ <;> (obtain rfl := Option.some.inj h; simp [applyCall])

/-- A crud operation the switch skips leaves the remote store
unchanged under direct spec-side application as well. -/
theorem callOf_none_direct (s : RemoteState) (o : CrudOp)
    (h : callOf o = none) :
    applyMutationDirect s o = s := by
  unfold callOf at h
  unfold applyMutationDirect
  split_ifs at h ⊢ <;> simp_all

/-- A crud operation the switch skips contributes nothing to the
loop: processing it is processing the rest of the batch. -/
theorem runOps_cons_none (remote : RemoteCall → Bool) (o : CrudOp)
    (rest : List CrudOp) (h : callOf o = none) :
    runOps remote (o :: rest) = runOps remote rest := by
  rw [runOps, h]

/-- C8: when `getNextCrudTransaction` yields no transaction (the queue
is empty), `uploadData` is a no-op tick: the queue is unchanged, no
remote call is issued, and the outcome is neither a commit nor a
rollback. -/
theorem empty_queue_noop (remote : RemoteCall → Bool) :
    uploadData remote [] = ([], [], Outcome.noop) := rfl

/-- C1: over a batch whose mutations all target recognized tables and
carry recognized operation kinds, and with every remote call
succeeding, the uploader issues exactly one call per mutation, in the
order the mutations were queued: a PUT becomes an upsert of the
payload on the mutation's table, a PATCH an update of the payload
filtered by the record's primary key, and a DELETE a delete filtered
by the record's primary key. -/
theorem uploader_maps_ops_in_order (remote : RemoteCall → Bool)
    (h : ∀ c, remote c = true) (ops : List CrudOp)
    (htab : ∀ o ∈ ops, o.table = "lists" ∨ o.table = "todos")
    (hop : ∀ o ∈ ops, o.op = "PUT" ∨ o.op = "PATCH" ∨ o.op = "DELETE") :
    (runOps remote ops).1 = ops.map fun o =>
      if o.op = "PUT" then RemoteCall.upsert o.table o.opData
      else if o.op = "PATCH" then RemoteCall.update o.table o.opData o.id
      else RemoteCall.delete o.table o.id := by
  rw [runOps_of_success remote h]
  clear h
  show List.filterMap callOf ops = _
  induction ops with
  | nil => rfl
  | cons o rest ih =>
    have hrest := ih (fun x hx => htab x (List.mem_cons_of_mem _ hx))
      (fun x hx => hop x (List.mem_cons_of_mem _ hx))
    rcases hop o (List.mem_cons_self _ _) with h2 | h2 | h2 <;>
      rcases htab o (List.mem_cons_self _ _) with h1 | h1 <;>
        simp [List.filterMap_cons, callOf, h1, h2, hrest]

/-- C2: for any drained batch, the transaction is completed exactly
when every remote call the batch produces succeeds; when some call
fails, the transaction is rolled back and the queue is left exactly as
it was (the batch still first, unmodified, in original order); and no
attempted call that failed goes without a rollback. -/
theorem uploader_all_or_nothing (remote : RemoteCall → Bool)
    (batch : List CrudOp) (rest : Queue) :
    ((uploadData remote (batch :: rest)).2.2 = Outcome.committed ↔
      ∀ c ∈ batch.filterMap callOf, remote c = true) ∧
    ((¬ ∀ c ∈ batch.filterMap callOf, remote c = true) →
      (uploadData remote (batch :: rest)).2.2 = Outcome.rolledBack ∧
      (uploadData remote (batch :: rest)).1 = batch :: rest) ∧
    (∀ c ∈ (uploadData remote (batch :: rest)).2.1, remote c = false →
      (uploadData remote (batch :: rest)).2.2 = Outcome.rolledBack) := by
  have hiff := runOps_true_iff remote batch
  by_cases hb : (runOps remote batch).2 = true
  · have hall := hiff.mp hb
    have he := runOps_success_eq remote batch hb
    refine ⟨?_, fun hn => absurd hall hn, ?_⟩
    · simp only [uploadData, he, if_true]
      exact iff_of_true trivial hall
    · intro c hc hcf
      simp only [uploadData, he, if_true] at hc
      exact absurd (hall c hc) (by simp [hcf])
  · have hfail : (runOps remote batch).2 = false := by
      simpa using hb
    have hne : ¬ ∀ c ∈ batch.filterMap callOf, remote c = true :=
      fun hall => hb (hiff.mpr hall)
    refine ⟨?_, fun _ => ?_, fun _ _ _ => ?_⟩
    · simp only [uploadData, hfail, if_false]
      exact iff_of_false (by simp) hne
    · simp [uploadData, hfail]
    · simp [uploadData, hfail]

/-- C4: a mutation whose table is neither `lists` nor `todos` falls
through every branch of the table dispatch: no remote call is issued
for it, the rest of the batch is processed as if the mutation were
absent, and the batch can still be committed. -/
theorem unrecognized_table_skipped (remote : RemoteCall → Bool)
    (o : CrudOp) (rest : List CrudOp) (q : Queue)
    (h1 : o.table ≠ "lists") (h2 : o.table ≠ "todos") :
    callOf o = none ∧
    runOps remote (o :: rest) = runOps remote rest ∧
    ((runOps remote rest).2 = true →
      (uploadData remote ((o :: rest) :: q)).2.2 = Outcome.committed) := by
  have hc : callOf o = none := by
    unfold callOf; split_ifs <;> simp_all
  refine ⟨hc, runOps_cons_none remote o rest hc, fun hrest => ?_⟩
  simp [uploadData, runOps_cons_none remote o rest hc, hrest]

/-- Witness for C4: a PUT on the unknown table `users` issues no
call, processing continues, and the batch still commits. -/
theorem unrecognized_table_skipped_witness :
    ("users" ≠ "lists" ∧ "users" ≠ "todos") ∧
    callOf ⟨"PUT", "users", "u1", []⟩ = none ∧
    runOps (fun _ => true) [⟨"PUT", "users", "u1", []⟩] =
      runOps (fun _ => true) [] ∧
    (uploadData (fun _ => true) [[⟨"PUT", "users", "u1", []⟩]]).2.2 =
      Outcome.committed :=
  ⟨⟨by decide, by decide⟩,
   (unrecognized_table_skipped (fun _ => true) ⟨"PUT", "users", "u1", []⟩ [] []
     (by decide) (by decide)).1,
   (unrecognized_table_skipped (fun _ => true) ⟨"PUT", "users", "u1", []⟩ [] []
     (by decide) (by decide)).2.1,
   (unrecognized_table_skipped (fun _ => true) ⟨"PUT", "users", "u1", []⟩ [] []
     (by decide) (by decide)).2.2 rfl⟩

/-- C9: a mutation whose operation kind is none of PUT, PATCH or
DELETE hits no case of the switch, which has no default branch: no
remote call is issued for it, the rest of the batch is processed as if
the mutation were absent, and the batch can still be committed —
the same silent-skip policy as for unrecognized table names. -/
theorem unrecognized_opkind_skipped (remote : RemoteCall → Bool)
    (o : CrudOp) (rest : List CrudOp) (q : Queue)
    (h1 : o.op ≠ "PUT") (h2 : o.op ≠ "PATCH") (h3 : o.op ≠ "DELETE") :
    callOf o = none ∧
    runOps remote (o :: rest) = runOps remote rest ∧
    ((runOps remote rest).2 = true →
      (uploadData remote ((o :: rest) :: q)).2.2 = Outcome.committed) := by
  have hc : callOf o = none := by
    unfold callOf; split_ifs <;> simp_all
  refine ⟨hc, runOps_cons_none remote o rest hc, fun hrest => ?_⟩
  simp [uploadData, runOps_cons_none remote o rest hc, hrest]

/-- Witness for C9: a mutation with the unknown kind MOVE issues no
call, processing continues, and the batch still commits. -/
theorem unrecognized_opkind_skipped_witness :
    ("MOVE" ≠ "PUT" ∧ "MOVE" ≠ "PATCH" ∧ "MOVE" ≠ "DELETE") ∧
    callOf ⟨"MOVE", "lists", "x1", []⟩ = none ∧
    runOps (fun _ => true) [⟨"MOVE", "lists", "x1", []⟩] =
      runOps (fun _ => true) [] ∧
    (uploadData (fun _ => true) [[⟨"MOVE", "lists", "x1", []⟩]]).2.2 =
      Outcome.committed :=
  ⟨⟨by decide, by decide, by decide⟩,
   (unrecognized_opkind_skipped (fun _ => true) ⟨"MOVE", "lists", "x1", []⟩ [] []
     (by decide) (by decide) (by decide)).1,
   (unrecognized_opkind_skipped (fun _ => true) ⟨"MOVE", "lists", "x1", []⟩ [] []
     (by decide) (by decide) (by decide)).2.1,
   (unrecognized_opkind_skipped (fun _ => true) ⟨"MOVE", "lists", "x1", []⟩ [] []
     (by decide) (by decide) (by decide)).2.2 rfl⟩

/-- A small batch holding one mutation of each recognized kind. -/
def recognizedBatch : List CrudOp :=
  [⟨"PUT", "lists", "L1", [("id", .vStr "L1"), ("name", .vStr "A")]⟩,
   ⟨"PATCH", "todos", "T1", [("completed", .vInt 1)]⟩,
   ⟨"DELETE", "todos", "T2", []⟩]

/-- Witness for C1: on a concrete three-mutation batch the trace is
one call per mutation, in order, with the three mapped shapes. -/
theorem uploader_maps_ops_in_order_witness :
    ((∀ c, (fun _ => true : RemoteCall → Bool) c = true) ∧
     (∀ o ∈ recognizedBatch, o.table = "lists" ∨ o.table = "todos") ∧
     (∀ o ∈ recognizedBatch,
       o.op = "PUT" ∨ o.op = "PATCH" ∨ o.op = "DELETE")) ∧
    (runOps (fun _ => true) recognizedBatch).1 =
      recognizedBatch.map fun o =>
        if o.op = "PUT" then RemoteCall.upsert o.table o.opData
        else if o.op = "PATCH" then RemoteCall.update o.table o.opData o.id
        else RemoteCall.delete o.table o.id :=
  ⟨⟨fun _ => rfl, by decide, by decide⟩,
   uploader_maps_ops_in_order _ (fun _ => rfl) recognizedBatch
     (by decide) (by decide)⟩

/-- A three-mutation batch whose middle mutation's remote call will
be made to fail. -/
def batch3 : List CrudOp :=
  [⟨"PUT", "lists", "L1", [("id", .vStr "L1")]⟩,
   ⟨"PATCH", "todos", "T1", [("completed", .vInt 1)]⟩,
   ⟨"DELETE", "todos", "T2", []⟩]

/-- A remote store that rejects exactly the update produced by the
second mutation of `batch3`. -/
def failRemote : RemoteCall → Bool := fun c =>
  decide (c ≠ RemoteCall.update "todos" [("completed", Value.vInt 1)] "T1")

/-- Witness for C2: a batch of three mutations whose second fails is
rolled back, and the queue still holds all three mutations in their
original order. -/
theorem uploader_all_or_nothing_witness :
    (¬ ∀ c ∈ batch3.filterMap callOf, failRemote c = true) ∧
    ((uploadData failRemote [batch3]).2.2 = Outcome.rolledBack ∧
     (uploadData failRemote [batch3]).1 = [batch3]) :=
  ⟨by decide, (uploader_all_or_nothing failRemote batch3 []).2.1 (by decide)⟩

/-- C3: refinement of the spec's direct-application semantics: when
every remote call succeeds, applying the calls the uploader issues
for a batch to the remote store, in order, reaches exactly the state
obtained by applying the queued mutations directly to the remote
store in the same order. -/
theorem uploader_refines_direct_apply (remote : RemoteCall → Bool)
    (h : ∀ c, remote c = true) (ops : List CrudOp) (s : RemoteState) :
    applyCalls s (runOps remote ops).1 = applyMutationsDirect s ops := by
  rw [runOps_of_success remote h]
  show applyCalls s (ops.filterMap callOf) = _
  induction ops generalizing s with
  | nil => rfl
  | cons o rest ih =>
    cases hc : callOf o with
    | none =>
      have hf : List.filterMap callOf (o :: rest) =
          List.filterMap callOf rest := by
        simp [List.filterMap_cons, hc]
      rw [hf]
      show applyCalls s (List.filterMap callOf rest) =
        applyMutationsDirect (applyMutationDirect s o) rest
      rw [callOf_none_direct s o hc]
      exact ih s
    | some c =>
      have hf : List.filterMap callOf (o :: rest) =
          c :: List.filterMap callOf rest := by
        simp [List.filterMap_cons, hc]
      rw [hf]
      show applyCalls (applyCall s c) (List.filterMap callOf rest) =
        applyMutationsDirect (applyMutationDirect s o) rest
      rw [applyCall_eq_direct s o c hc]
      exact ih _

/-- Scenario payload for creating list L1. -/
def l1Row : Row :=
  [("id", .vStr "L1"), ("name", .vStr "Groceries"),
   ("created_at", .vStr "2024-01-01T00:00:00.000Z"),
   ("updated_at", .vStr "2024-01-01T00:00:00.000Z")]

/-- Scenario payload for creating todo T1 in list L1. -/
def t1Row : Row :=
  [("id", .vStr "T1"), ("list_id", .vStr "L1"),
   ("description", .vStr "Buy milk"), ("completed", .vInt 0),
   ("created_at", .vStr "2024-01-01T00:00:01.000Z"),
   ("updated_at", .vStr "2024-01-01T00:00:01.000Z")]

/-- The spec scenario queue: create list L1, create todo T1 in L1,
then set T1's completed flag. -/
def scenarioOps : List CrudOp :=
  [⟨"PUT", "lists", "L1", l1Row⟩,
   ⟨"PUT", "todos", "T1", t1Row⟩,
   ⟨"PATCH", "todos", "T1",
    [("completed", .vInt 1),
     ("updated_at", .vStr "2024-01-01T00:00:02.000Z")]⟩]

/-- Witness for C3: on the scenario queue the uploader's calls and
the direct application agree, and the resulting remote store holds
exactly one list L1 and one todo T1 whose completed value is set
(the nonzero local encoding of true). -/
theorem uploader_refines_direct_apply_witness :
    (∀ c, (fun _ => true : RemoteCall → Bool) c = true) ∧
    applyCalls ⟨[], []⟩ (runOps (fun _ => true) scenarioOps).1 =
      applyMutationsDirect ⟨[], []⟩ scenarioOps ∧
    (applyMutationsDirect ⟨[], []⟩ scenarioOps).lists = [l1Row] ∧
    (applyMutationsDirect ⟨[], []⟩ scenarioOps).todos =
      [[("id", .vStr "T1"), ("list_id", .vStr "L1"),
        ("description", .vStr "Buy milk"), ("completed", .vInt 1),
        ("created_at", .vStr "2024-01-01T00:00:01.000Z"),
        ("updated_at", .vStr "2024-01-01T00:00:02.000Z")]] :=
  ⟨fun _ => rfl,
   uploader_refines_direct_apply _ (fun _ => rfl) scenarioOps ⟨[], []⟩,
   by decide, by decide⟩

/-- C5: deleting a list removes its todos first and the list row only
afterwards: the intermediate state still has the lists table
untouched while no surviving todo references the list, referential
integrity (when it held before) holds at the intermediate and final
states, and the final state no longer contains the list. -/
theorem delete_list_todos_first (db : LocalDB) (listId : String)
    (h : refIntegrity db) :
    (deleteTodosOfList db listId).lists = db.lists ∧
    (∀ t ∈ (deleteTodosOfList db listId).todos, t.list_id ≠ listId) ∧
    refIntegrity (deleteTodosOfList db listId) ∧
    handleDeleteList db listId =
      deleteListById (deleteTodosOfList db listId) listId ∧
    (∀ l ∈ (handleDeleteList db listId).lists, l.id ≠ listId) ∧
    refIntegrity (handleDeleteList db listId) := by
  refine ⟨rfl, ?_, ?_, rfl, ?_, ?_⟩
  · intro t ht
    simp only [deleteTodosOfList, List.mem_filter, decide_eq_true_eq] at ht
    exact ht.2
  · intro t ht
    simp only [deleteTodosOfList, List.mem_filter, decide_eq_true_eq] at ht
    exact h t ht.1
  · intro l hl
    simp only [handleDeleteList, deleteListById, deleteTodosOfList,
      List.mem_filter, decide_eq_true_eq] at hl
    exact hl.2
  · intro t ht
    simp only [handleDeleteList, deleteListById, deleteTodosOfList,
      List.mem_filter, decide_eq_true_eq] at ht
    obtain ⟨l, hl, hid⟩ := h t ht.1
    refine ⟨l, ?_, hid⟩
    simp only [handleDeleteList, deleteListById, deleteTodosOfList,
      List.mem_filter, decide_eq_true_eq]
    exact ⟨hl, by rw [hid]; exact ht.2⟩

/-- A concrete two-list, two-todo database for exercising the list
deletion path. -/
def dbDel : LocalDB :=
  ⟨[⟨"l1", "Groceries", "t0", "t0"⟩, ⟨"l2", "Chores", "t0", "t0"⟩],
   [⟨"td1", "l1", "Buy milk", 0, "t0", "t0"⟩,
    ⟨"td2", "l2", "Sweep", 1, "t0", "t0"⟩]⟩

/-- Witness for C5: deleting list l1 from the concrete database keeps
integrity, removes exactly l1's todos first, and then the list. -/
theorem delete_list_todos_first_witness :
    refIntegrity dbDel ∧
    ((deleteTodosOfList dbDel "l1").lists = dbDel.lists ∧
     (∀ t ∈ (deleteTodosOfList dbDel "l1").todos, t.list_id ≠ "l1") ∧
     refIntegrity (deleteTodosOfList dbDel "l1") ∧
     handleDeleteList dbDel "l1" =
       deleteListById (deleteTodosOfList dbDel "l1") "l1" ∧
     (∀ l ∈ (handleDeleteList dbDel "l1").lists, l.id ≠ "l1") ∧
     refIntegrity (handleDeleteList dbDel "l1")) :=
  ⟨by decide, delete_list_todos_first dbDel "l1" (by decide)⟩

/-- C6: toggling a todo with current completed value c flips the
zero/one flag — the stored value is 1 when c is falsy (zero) and 0
when c is truthy (nonzero) — and stamps the row's updated_at with the
current timestamp, keeping the row's id. -/
theorem toggle_flips_completed (db : LocalDB) (todoId : String)
    (c : Int) (now : String) (t : TodoRec) (ht : t ∈ db.todos)
    (hid : t.id = todoId) :
    ∃ u ∈ (handleToggleTodo db todoId c now).todos,
      u.id = t.id ∧ u.updated_at = now ∧
      (c = 0 → u.completed = 1) ∧ (c ≠ 0 → u.completed = 0) := by
  refine ⟨{ t with completed := if c ≠ 0 then 0 else 1, updated_at := now },
    ?_, rfl, rfl, fun h0 => by simp [h0], fun h0 => by simp [h0]⟩
  simp only [handleToggleTodo]
  rw [List.mem_map]
  exact ⟨t, ht, by simp [hid]⟩

/-- A single-todo database for exercising the toggle path. -/
def dbTog : LocalDB :=
  ⟨[⟨"l1", "Groceries", "t0", "t0"⟩],
   [⟨"td1", "l1", "Buy milk", 0, "t0", "t0"⟩]⟩

/-- Witness for C6: toggling the unchecked todo td1 stores completed
1 and the fresh timestamp. -/
theorem toggle_flips_completed_witness :
    ((⟨"td1", "l1", "Buy milk", 0, "t0", "t0"⟩ : TodoRec) ∈ dbTog.todos ∧
     (⟨"td1", "l1", "Buy milk", 0, "t0", "t0"⟩ : TodoRec).id = "td1") ∧
    (∃ u ∈ (handleToggleTodo dbTog "td1" 0 "t1").todos,
      u.id = "td1" ∧ u.updated_at = "t1" ∧
      ((0 : Int) = 0 → u.completed = 1) ∧ ((0 : Int) ≠ 0 → u.completed = 0)) :=
  ⟨⟨by decide, by decide⟩,
   toggle_flips_completed dbTog "td1" 0 "t1"
     ⟨"td1", "l1", "Buy milk", 0, "t0", "t0"⟩ (by decide) rfl⟩

/-- A concrete todos mutation carrying the local zero/one integer
completed value, as `handleToggleTodo` would queue it. -/
def patchTodoOp : CrudOp :=
  ⟨"PATCH", "todos", "T1",
   [("completed", .vInt 1),
    ("updated_at", .vStr "2024-01-01T00:00:02.000Z")]⟩

/-- Whether the payload of an issued upsert/update call carries its
completed field as a boolean value (calls without a payload, or
without a completed field, carry nothing to translate). -/
def completedIsBool (c : RemoteCall) : Bool :=
  match c with
  | .upsert _ p | .update _ p _ =>
    match p.lookup "completed" with
    | some (.vBool _) => true
    | some _ => false
    | none => true
  | .delete _ _ => true

/-- C7 fails on the code: the uploader passes `op.opData` through
verbatim, so the completed value of this todos update reaches the
remote call as the integer 1, not as a boolean. -/
theorem completed_not_bool_counterexample :
    callOf patchTodoOp =
      some (RemoteCall.update "todos" patchTodoOp.opData "T1") ∧
    completedIsBool (RemoteCall.update "todos" patchTodoOp.opData "T1") =
      false :=
  ⟨rfl, rfl⟩

/-- The payload an issued remote call carries, when its shape has
one. -/
def payloadOf : RemoteCall → Option Row
  | .upsert _ p => some p
  | .update _ p _ => some p
  | .delete _ _ => none

/-- C7 amended: every upsert or update call the uploader issues
carries the mutation's `opData` verbatim — in particular the
completed field keeps its local zero/one integer form; no translation
to a boolean is performed. -/
theorem payload_passed_verbatim (o : CrudOp) (c : RemoteCall)
    (h : callOf o = some c) :
    ∀ p, payloadOf c = some p → p = o.opData := by
  unfold callOf at h
  split_ifs at h <;>
    (obtain rfl := Option.some.inj h
     intro p hp
     simpa [payloadOf] using hp.symm)

/-- Witness for the amended C7: the update issued for `patchTodoOp`
carries exactly its opData. -/
theorem payload_passed_verbatim_witness :
    callOf patchTodoOp =
      some (RemoteCall.update "todos" patchTodoOp.opData "T1") ∧
    (∀ p, payloadOf (RemoteCall.update "todos" patchTodoOp.opData "T1") =
      some p → p = patchTodoOp.opData) :=
  ⟨rfl, payload_passed_verbatim patchTodoOp _ rfl⟩

/-- C10: every todo row inserted by `handleCreateTodo` or by the
sample-data seeder is created with completed 0 and with created_at
and updated_at both equal to the single timestamp taken at creation;
pre-existing rows are untouched. -/
theorem new_todos_initialized :
    (∀ db id listId d now,
      ∀ t ∈ (handleCreateTodo db id listId d now).todos,
      t ∈ db.todos ∨
        (t.completed = 0 ∧ t.created_at = now ∧ t.updated_at = now)) ∧
    (∀ db listId i1 i2 i3 now,
      ∀ t ∈ (createSampleData db listId i1 i2 i3 now).todos,
      t ∈ db.todos ∨
        (t.completed = 0 ∧ t.created_at = now ∧ t.updated_at = now)) := by
  constructor
  · intro db id listId d now t ht
    simp only [handleCreateTodo, List.mem_append, List.mem_singleton] at ht
    rcases ht with ht | ht
    · exact Or.inl ht
    · subst ht; exact Or.inr ⟨rfl, rfl, rfl⟩
  · intro db listId i1 i2 i3 now t ht
    simp only [createSampleData, handleCreateList, handleCreateTodo,
      todoDescriptions, List.zip_cons_cons, List.zip_nil_right,
      List.foldl_cons, List.foldl_nil, List.append_assoc,
      List.mem_append, List.mem_singleton] at ht
    rcases ht with ht | ht | ht | ht
    · exact Or.inl ht
    all_goals (subst ht; exact Or.inr ⟨rfl, rfl, rfl⟩)

/-- Witness for C10: a todo created into an empty database carries
completed 0 and equal creation and update timestamps. -/
theorem new_todos_initialized_witness :
    ((⟨"td9", "l9", "Water plants", 0, "t9", "t9"⟩ : TodoRec) ∈
      (handleCreateTodo ⟨[], []⟩ "td9" "l9" "Water plants" "t9").todos) ∧
    ((⟨"td9", "l9", "Water plants", 0, "t9", "t9"⟩ : TodoRec) ∈
        (⟨[], []⟩ : LocalDB).todos ∨
      ((⟨"td9", "l9", "Water plants", 0, "t9", "t9"⟩ : TodoRec).completed = 0 ∧
       (⟨"td9", "l9", "Water plants", 0, "t9", "t9"⟩ : TodoRec).created_at =
         "t9" ∧
       (⟨"td9", "l9", "Water plants", 0, "t9", "t9"⟩ : TodoRec).updated_at =
         "t9")) :=
  ⟨by decide,
   new_todos_initialized.1 ⟨[], []⟩ "td9" "l9" "Water plants" "t9" _
     (by decide)⟩
